import Mathlib

/-!
Verification of the points/level/achievement core of the MCE student portal
backend (Node/Express + Mongoose).  The data model and the operations below
are a shallow embedding of:

  * `src/unnamed/part_002`            — the User schema and its methods
    (`calculateLevel`),
  * `src/unnamed/part_001`            — the Achievement schema and
    `checkEligibility`,
  * `src/models/Event.js`             — the Event schema, the pre-save
    status hook and `canParticipate`,
  * `src/controllers/authController.js`
                                      — `participateInEvent`,
    `removeParticipation`, `awardPointsForEvent` (with its inline
    achievement sweep),
  * `src/controllers/achievementController.js`
                                      — `checkUserAchievements`.

Modelling conventions: Mongo ObjectIds are `Nat`; JS numbers holding point
values are `Int` (no floating arithmetic is performed on them by the code);
dates are `Int` timestamps; `null` for `maxParticipants` is `none`.
Presentation-only fields (title, description, category, department, icon,
password, timestamps such as `participatedAt`/`earnedAt`) carry no logic in
the verified operations and are omitted.  A thrown `AppError` is modelled as
`Except.error` carrying a constructor per distinct error response; an
errored request persists nothing, so the pre-call entities are the state
left behind on failure.
-/

/-- Event `status` enum from `src/models/Event.js`. -/
inductive EventStatus
  | upcoming
  | ongoing
  | completed
  | cancelled
  deriving DecidableEq, Repr

/-- Achievement `requirements.type` enum from `src/unnamed/part_001`. -/
inductive RequirementType
  | points
  | events
  | streak
  | custom
  deriving DecidableEq, Repr

/-- One entry of `Event.participants`. -/
structure Participant where
  userId : Nat
  pointsEarned : Int
  deriving DecidableEq, Repr

/-- One entry of `User.eventsParticipated`. -/
structure EventParticipation where
  eventId : Nat
  pointsEarned : Int
  deriving DecidableEq, Repr

/-- One entry of `User.achievements` (the code pushes
`{achievementId, points}`; `earnedAt` defaults to now and is omitted). -/
structure UserAchievement where
  achievementId : Nat
  points : Int
  deriving DecidableEq, Repr

/-- The User document fields involved in the verified flows. -/
structure User where
  id : Nat
  totalPoints : Int
  level : Int
  achievements : List UserAchievement
  eventsParticipated : List EventParticipation
  deriving DecidableEq, Repr

/-- The Event document fields involved in the verified flows. -/
structure Event where
  id : Nat
  points : Int
  date : Int
  status : EventStatus
  participants : List Participant
  maxParticipants : Option Int
  isActive : Bool
  deriving DecidableEq, Repr

/-- The `requirements` subdocument of an Achievement.  `value` is required
by the schema unless the type is `custom`, where it is unused; we carry it
always (the evaluator never reads it for `custom`/`streak`). -/
structure Requirements where
  type : RequirementType
  value : Int
  deriving DecidableEq, Repr

/-- The Achievement document fields involved in the verified flows. -/
structure Achievement where
  id : Nat
  points : Int
  requirements : Requirements
  isActive : Bool
  deriving DecidableEq, Repr

/-- Error responses thrown by the modelled controller flows
(`AppError` messages, one constructor per message). -/
inductive ApiError
  | cannotParticipate
  | notParticipating
  | userAndPointsRequired
  | alreadyParticipating
  deriving DecidableEq, Repr

/-- `userSchema.methods.calculateLevel` (src/unnamed/part_002 lines
116-119): `Math.floor(this.totalPoints / 200) + 1`.  `Int.fdiv` is floor
division, agreeing with `Math.floor` of the exact quotient for every
integer numerator. -/
def calculateLevel (u : User) : Int :=
  u.totalPoints.fdiv 200 + 1

/-- `eventSchema.pre('save')` hook (src/models/Event.js lines 86-95): an
`upcoming` event whose date has passed becomes `completed` when saved. -/
def saveEvent (now : Int) (e : Event) : Event :=
  if e.status = EventStatus.upcoming ∧ e.date ≤ now then
    { e with status := EventStatus.completed }
  else
    e

/-- `eventSchema.methods.canParticipate` (src/models/Event.js lines
103-124).  The capacity guard mirrors the JS truthiness test
`this.maxParticipants && this.participants.length >= this.maxParticipants`:
a `null` (here `none`) or `0` capacity skips the check. -/
def canParticipate (e : Event) (userId : Nat) : Bool :=
  if e.isActive = false ∨ e.status = EventStatus.completed ∨ e.status = EventStatus.cancelled then
    false
  else if e.participants.any (fun p => p.userId == userId) then
    false
  else
    match e.maxParticipants with
    | none => true
    | some m => if m ≠ 0 ∧ m ≤ (e.participants.length : Int) then false else true

/-- `achievementSchema.methods.checkEligibility` (src/unnamed/part_001
lines 188-209). -/
def checkEligibility (a : Achievement) (u : User) : Bool :=
  if a.isActive = false then false
  else
    match a.requirements.type with
    | RequirementType.points => decide (a.requirements.value ≤ u.totalPoints)
    | RequirementType.events => decide (a.requirements.value ≤ (u.eventsParticipated.length : Int))
    | RequirementType.streak => false
    | RequirementType.custom => false

/-- `participateInEvent` (src/controllers/authController.js lines
356-392): guard with `canParticipate`, push the participant record with
`pointsEarned = event.points`, save the event (running the status hook),
then add the points to the user, recompute the level from the updated
total, and push the participation record. -/
def participateInEvent (now : Int) (e : Event) (u : User) :
    Except ApiError (Event × User) :=
  if canParticipate e u.id = false then
    Except.error ApiError.cannotParticipate
  else
    let e1 := saveEvent now
      { e with participants := e.participants ++ [{ userId := u.id, pointsEarned := e.points }] }
    let u1 := { u with totalPoints := u.totalPoints + e.points }
    let u2 := { u1 with
      level := calculateLevel u1,
      eventsParticipated :=
        u1.eventsParticipated ++ [{ eventId := e.id, pointsEarned := e.points }] }
    Except.ok (e1, u2)

/-- `removeParticipation` (src/controllers/authController.js lines
397-435): `findIndex` + `splice` of the first matching participant record
is `find?` + `eraseP`; the user loses the `pointsEarned` recorded in that
record, the level is recomputed, and every `eventsParticipated` entry for
this event id is filtered out. -/
def removeParticipation (now : Int) (e : Event) (u : User) :
    Except ApiError (Event × User) :=
  match e.participants.find? (fun p => p.userId == u.id) with
  | none => Except.error ApiError.notParticipating
  | some participation =>
    let e1 := saveEvent now
      { e with participants := e.participants.eraseP (fun p => p.userId == u.id) }
    let u1 := { u with totalPoints := u.totalPoints - participation.pointsEarned }
    let u2 := { u1 with
      level := calculateLevel u1,
      eventsParticipated := u1.eventsParticipated.filter (fun ep => ep.eventId != e.id) }
    Except.ok (e1, u2)

/-- The achievement loop of `checkUserAchievements`
(src/controllers/achievementController.js lines 194-215): for each fetched
achievement, skip it if the user already holds its id, otherwise award it —
push `{achievementId, points}`, add its points to `totalPoints`, recompute
the level — and record `{achievement, points}` in the returned list.  The
user value threads through the loop, so later iterations see the updated
stats and list. -/
def checkSweep : List Achievement → User → User × List (Achievement × Int)
  | [], u => (u, [])
  | a :: rest, u =>
    if u.achievements.any (fun ua => ua.achievementId == a.id) = false
        ∧ checkEligibility a u = true then
      let tp := u.totalPoints + a.points
      let u1 := { u with
        achievements := u.achievements ++ [{ achievementId := a.id, points := a.points }],
        totalPoints := tp,
        level := tp.fdiv 200 + 1 }
      let r := checkSweep rest u1
      (r.1, (a, a.points) :: r.2)
    else
      checkSweep rest u

/-- `checkUserAchievements` (src/controllers/achievementController.js lines
188-226): the loop above run over the active achievements
(`Achievement.find({isActive: true})`). -/
def checkUserAchievements (u : User) (catalog : List Achievement) :
    User × List (Achievement × Int) :=
  checkSweep (catalog.filter (fun a => a.isActive)) u

/-- The achievement loop inside `awardPointsForEvent`
(src/controllers/authController.js lines 490-504): same held-achievement
guard and eligibility call, but the award only pushes
`{achievementId, points}` onto `user.achievements` and records the
achievement in `newAchievements` — it does not touch `totalPoints` or
`level`. -/
def adminSweep : List Achievement → User → User × List Achievement
  | [], u => (u, [])
  | a :: rest, u =>
    if u.achievements.any (fun ua => ua.achievementId == a.id) = false
        ∧ checkEligibility a u = true then
      let u1 := { u with
        achievements := u.achievements ++ [{ achievementId := a.id, points := a.points }] }
      let r := adminSweep rest u1
      (r.1, a :: r.2)
    else
      adminSweep rest u

/-- `awardPointsForEvent` (src/controllers/authController.js lines
440-521): reject a falsy `points` (`!points`, i.e. `0`; the `userId`
presence check always passes here since the user entity is given), reject
an existing participation, otherwise push the participant record with the
admin-specified `points`, save the event, add `points` to the user,
recompute the level, push the participation record, then run the inline
achievement sweep over the active achievements. -/
def awardPointsForEvent (now : Int) (e : Event) (u : User) (points : Int)
    (catalog : List Achievement) :
    Except ApiError (Event × User × List Achievement) :=
  if points = 0 then
    Except.error ApiError.userAndPointsRequired
  else if e.participants.any (fun p => p.userId == u.id) then
    Except.error ApiError.alreadyParticipating
  else
    let e1 := saveEvent now
      { e with participants := e.participants ++ [{ userId := u.id, pointsEarned := points }] }
    let u1 := { u with totalPoints := u.totalPoints + points }
    let u2 := { u1 with
      level := calculateLevel u1,
      eventsParticipated :=
        u1.eventsParticipated ++ [{ eventId := e.id, pointsEarned := points }] }
    let swept := adminSweep (catalog.filter (fun a => a.isActive)) u2
    Except.ok (e1, swept.1, swept.2)

/-- The ledger invariant of spec §3/§4.2:
`level == floor(totalPoints / 200) + 1`. -/
def levelInvariant (u : User) : Prop :=
  u.level = u.totalPoints.fdiv 200 + 1

/-- An active points-threshold achievement (threshold 100, reward 100). -/
def achA : Achievement :=
  { id := 1, points := 100,
    requirements := { type := RequirementType.points, value := 100 }, isActive := true }

/-- An active points-threshold achievement (threshold 200, reward 10). -/
def achB : Achievement :=
  { id := 2, points := 10,
    requirements := { type := RequirementType.points, value := 200 }, isActive := true }

/-- A user with 150 points, consistent level, and no achievements. -/
def demoUser : User :=
  { id := 1, totalPoints := 150, level := 1, achievements := [], eventsParticipated := [] }

/-- An inactive achievement whose threshold the demo user meets. -/
def achInactive : Achievement :=
  { id := 3, points := 50,
    requirements := { type := RequirementType.points, value := 0 }, isActive := false }

/-- An active `events`-kind achievement with threshold 0. -/
def achEvents : Achievement :=
  { id := 4, points := 50,
    requirements := { type := RequirementType.events, value := 0 }, isActive := true }

/-- An active `streak`-kind achievement. -/
def achStreak : Achievement :=
  { id := 5, points := 50,
    requirements := { type := RequirementType.streak, value := 0 }, isActive := true }

/-- An active `custom`-kind achievement. -/
def achCustom : Achievement :=
  { id := 6, points := 50,
    requirements := { type := RequirementType.custom, value := 0 }, isActive := true }

/-- A zero-capacity event that already has three participants. -/
def evZeroCap : Event :=
  { id := 11, points := 30, date := 999, status := EventStatus.ongoing,
    participants := [{ userId := 21, pointsEarned := 30 },
                     { userId := 22, pointsEarned := 30 },
                     { userId := 23, pointsEarned := 30 }],
    maxParticipants := some 0, isActive := true }

/-- An event whose only participant record credits user 1 with 100 points,
while the event's current `points` value is 7. -/
def evRecorded : Event :=
  { id := 14, points := 7, date := 999, status := EventStatus.ongoing,
    participants := [{ userId := 1, pointsEarned := 100 }],
    maxParticipants := none, isActive := true }

/-- A user at 30 points who participated in `evRecorded` for 100. -/
def userThirty : User :=
  { id := 1, totalPoints := 30, level := 1, achievements := [],
    eventsParticipated := [{ eventId := 14, pointsEarned := 100 }] }

/-- An active points-threshold achievement (threshold 50, reward 100). -/
def achThreshold50 : Achievement :=
  { id := 7, points := 100,
    requirements := { type := RequirementType.points, value := 50 }, isActive := true }

/-- A user at 10 points with no achievements. -/
def userTen : User :=
  { id := 1, totalPoints := 10, level := 1, achievements := [], eventsParticipated := [] }

/-- A plain joinable event. -/
def evPlain : Event :=
  { id := 9, points := 5, date := 100, status := EventStatus.ongoing,
    participants := [], maxParticipants := none, isActive := true }

/-- An event at its full capacity of 1. -/
def evCapOne : Event :=
  { id := 12, points := 50, date := 999, status := EventStatus.ongoing,
    participants := [{ userId := 31, pointsEarned := 50 }],
    maxParticipants := some 1, isActive := true }

/-- An empty event with capacity 0. -/
def evCapZero : Event :=
  { id := 13, points := 50, date := 999, status := EventStatus.ongoing,
    participants := [], maxParticipants := some 0, isActive := true }

/-- An event with one participant and capacity 5. -/
def evCapFive : Event :=
  { id := 15, points := 20, date := 999, status := EventStatus.ongoing,
    participants := [{ userId := 41, pointsEarned := 20 }],
    maxParticipants := some 5, isActive := true }

/-- `evCapFive` after the demo user joins. -/
def evCapFiveAfter : Event :=
  { id := 15, points := 20, date := 999, status := EventStatus.ongoing,
    participants := [{ userId := 41, pointsEarned := 20 },
                     { userId := 1, pointsEarned := 20 }],
    maxParticipants := some 5, isActive := true }

/-- The demo user after joining `evCapFive`. -/
def demoUserCapFive : User :=
  { id := 1, totalPoints := 170, level := 1, achievements := [],
    eventsParticipated := [{ eventId := 15, pointsEarned := 20 }] }

/-- A completed event. -/
def evDone : Event :=
  { id := 16, points := 40, date := 1, status := EventStatus.completed,
    participants := [], maxParticipants := none, isActive := true }

/-- An open joinable event worth 200 points. -/
def evOpen : Event :=
  { id := 5, points := 200, date := 999, status := EventStatus.ongoing,
    participants := [], maxParticipants := none, isActive := true }

/-- `evOpen` after the demo user joins. -/
def evOpenAfter : Event :=
  { id := 5, points := 200, date := 999, status := EventStatus.ongoing,
    participants := [{ userId := 1, pointsEarned := 200 }],
    maxParticipants := none, isActive := true }

/-- The demo user after joining `evOpen`. -/
def demoUserAfterOpen : User :=
  { id := 1, totalPoints := 350, level := 2, achievements := [],
    eventsParticipated := [{ eventId := 5, pointsEarned := 200 }] }

/-- `evPlain` after the admin award of 50 points to `userTen`. -/
def evPlainAfterAward : Event :=
  { id := 9, points := 5, date := 100, status := EventStatus.ongoing,
    participants := [{ userId := 1, pointsEarned := 50 }],
    maxParticipants := none, isActive := true }

/-- `userTen` after the admin award of 50 points and the trailing sweep
awarding `achThreshold50`. -/
def userTenAwarded : User :=
  { id := 1, totalPoints := 60, level := 1,
    achievements := [{ achievementId := 7, points := 100 }],
    eventsParticipated := [{ eventId := 9, pointsEarned := 50 }] }

/-- A user already holding `achA` (id 1), with enough points for both demo
achievements. -/
def heldUser : User :=
  { id := 2, totalPoints := 1000, level := 6,
    achievements := [{ achievementId := 1, points := 100 }],
    eventsParticipated := [] }

/-! ### Lemmas and claim theorems -/

theorem saveEvent_participants (now : Int) (e : Event) :
    (saveEvent now e).participants = e.participants := by
  unfold saveEvent; split <;> rfl

theorem saveEvent_id (now : Int) (e : Event) :
    (saveEvent now e).id = e.id := by
  unfold saveEvent; split <;> rfl

theorem find_append_of_none {α : Type} (p : α → Bool) (l₁ l₂ : List α)
    (h : l₁.find? p = none) : (l₁ ++ l₂).find? p = l₂.find? p := by
  rw [List.find?_append, h, Option.none_or]

/-- C6: `checkEligibility` returns true for a `points` requirement iff
`totalPoints >= value`, true for an `events` requirement iff
`eventsParticipated.length >= value`, always false for `streak` and
`custom`, and always false for an inactive achievement regardless of the
stats.  (The embedding is a pure function, so the no-mutation part of the
claim holds by construction.) -/
theorem eligibility_matches_spec (a : Achievement) (u : User) :
    (a.isActive = false → checkEligibility a u = false)
    ∧ (a.isActive = true → a.requirements.type = RequirementType.points →
        (checkEligibility a u = true ↔ a.requirements.value ≤ u.totalPoints))
    ∧ (a.isActive = true → a.requirements.type = RequirementType.events →
        (checkEligibility a u = true ↔
          a.requirements.value ≤ (u.eventsParticipated.length : Int)))
    ∧ (a.requirements.type = RequirementType.streak → checkEligibility a u = false)
    ∧ (a.requirements.type = RequirementType.custom → checkEligibility a u = false) := by
  refine ⟨fun h => by simp [checkEligibility, h],
          fun h1 h2 => by simp [checkEligibility, h1, h2],
          fun h1 h2 => by simp [checkEligibility, h1, h2],
          fun h => ?_,
          fun h => ?_⟩ <;>
    by_cases ha : a.isActive = false <;> simp [checkEligibility, ha, h]

/-- Witness for C6 at concrete inputs: every branch of the contract is
exercised once. -/
theorem eligibility_matches_spec_witness :
    checkEligibility achInactive demoUser = false
    ∧ checkEligibility achA demoUser = true
    ∧ checkEligibility achEvents demoUser = true
    ∧ checkEligibility achStreak demoUser = false
    ∧ checkEligibility achCustom demoUser = false :=
  ⟨(eligibility_matches_spec achInactive demoUser).1 rfl,
   ((eligibility_matches_spec achA demoUser).2.1 rfl rfl).mpr (by decide),
   ((eligibility_matches_spec achEvents demoUser).2.2.1 rfl rfl).mpr (by decide),
   (eligibility_matches_spec achStreak demoUser).2.2.2.1 rfl,
   (eligibility_matches_spec achCustom demoUser).2.2.2.2 rfl⟩

/-- C9: in one invocation of the direct achievement-check flow the user's
stats are updated per award before later achievements are checked: with
`achA` (threshold 100, reward 100) listed before `achB` (threshold 200,
reward 10) and a user at 150 points, `achB` does not qualify against the
initial stats, yet the single sweep awards both — the 100 points from
`achA` push the running total to 250 before `achB` is evaluated — ending
at 260 points. -/
theorem check_flow_uses_running_stats :
    checkEligibility achB demoUser = false
    ∧ (checkUserAchievements demoUser [achA, achB]).2 = [(achA, 100), (achB, 10)]
    ∧ (checkUserAchievements demoUser [achA, achB]).1.totalPoints = 260 := by
  decide

/-- C10: when `maxParticipants` is `0` the capacity guard is skipped (the
JS truthiness test treats `0` like `null`), so Join succeeds at any
participant count provided the event is active, not completed/cancelled,
and the user is not already a participant. -/
theorem zero_capacity_is_unlimited (now : Int) (e : Event) (u : User)
    (h0 : e.maxParticipants = some 0)
    (hact : e.isActive = true)
    (hc : e.status ≠ EventStatus.completed)
    (hx : e.status ≠ EventStatus.cancelled)
    (hp : ∀ p ∈ e.participants, p.userId ≠ u.id) :
    canParticipate e u.id = true
    ∧ participateInEvent now e u =
        Except.ok
          (saveEvent now
            { e with participants :=
                e.participants ++ [{ userId := u.id, pointsEarned := e.points }] },
           { u with totalPoints := u.totalPoints + e.points,
                    level := (u.totalPoints + e.points).fdiv 200 + 1,
                    eventsParticipated :=
                      u.eventsParticipated ++ [{ eventId := e.id, pointsEarned := e.points }] }) := by
  have hany : e.participants.any (fun p => p.userId == u.id) = false := by
    simp only [List.any_eq_false]
    intro p hpmem
    simpa using hp p hpmem
  have hcan : canParticipate e u.id = true := by
    unfold canParticipate
    rw [if_neg (by simp [hact, hc, hx]), hany, if_neg (by simp), h0]
    simp
  refine ⟨hcan, ?_⟩
  unfold participateInEvent
  rw [hcan]
  rfl

/-- Witness for C10: a join on a zero-capacity event that already has
three participants succeeds. -/
theorem zero_capacity_is_unlimited_witness :
    canParticipate evZeroCap demoUser.id = true
    ∧ participateInEvent 0 evZeroCap demoUser =
        Except.ok
          (saveEvent 0
            { evZeroCap with participants :=
                evZeroCap.participants ++ [{ userId := demoUser.id, pointsEarned := evZeroCap.points }] },
           { demoUser with
                    totalPoints := demoUser.totalPoints + evZeroCap.points,
                    level := (demoUser.totalPoints + evZeroCap.points).fdiv 200 + 1,
                    eventsParticipated :=
                      demoUser.eventsParticipated ++ [{ eventId := evZeroCap.id, pointsEarned := evZeroCap.points }] }) :=
  zero_capacity_is_unlimited 0 evZeroCap demoUser rfl rfl (by decide) (by decide) (by decide)

/-- C7: when a participation record exists, `removeParticipation` succeeds
and decrements `totalPoints` by exactly the `pointsEarned` recorded in that
record (not by the event's current `points` value — the result never
mentions `e.points`); no lower bound is enforced, so the total goes
negative whenever the recorded value exceeds it. -/
theorem leave_subtracts_recorded_points (now : Int) (e : Event) (u : User)
    (part : Participant)
    (hfind : e.participants.find? (fun p => p.userId == u.id) = some part) :
    removeParticipation now e u =
      Except.ok
        (saveEvent now
          { e with participants := e.participants.eraseP (fun p => p.userId == u.id) },
         { u with totalPoints := u.totalPoints - part.pointsEarned,
                  level := (u.totalPoints - part.pointsEarned).fdiv 200 + 1,
                  eventsParticipated :=
                    u.eventsParticipated.filter (fun ep => ep.eventId != e.id) })
    ∧ (u.totalPoints < part.pointsEarned → u.totalPoints - part.pointsEarned < 0) := by
  constructor
  · unfold removeParticipation
    rw [hfind]
    rfl
  · intro h
    omega

/-- Witness for C7: leaving `evRecorded` subtracts the recorded 100 (not
the current 7), driving the total to -70. -/
theorem leave_subtracts_recorded_points_witness :
    removeParticipation 0 evRecorded userThirty =
      Except.ok
        (saveEvent 0
          { evRecorded with participants :=
              evRecorded.participants.eraseP (fun p => p.userId == userThirty.id) },
         { userThirty with
                  totalPoints := userThirty.totalPoints - (100 : Int),
                  level := (userThirty.totalPoints - (100 : Int)).fdiv 200 + 1,
                  eventsParticipated :=
                    userThirty.eventsParticipated.filter (fun ep => ep.eventId != evRecorded.id) })
    ∧ userThirty.totalPoints - (100 : Int) < 0 :=
  ⟨(leave_subtracts_recorded_points 0 evRecorded userThirty
      { userId := 1, pointsEarned := 100 } (by decide)).1,
   (leave_subtracts_recorded_points 0 evRecorded userThirty
      { userId := 1, pointsEarned := 100 } (by decide)).2 (by decide)⟩

/-- The sweep inside `awardPointsForEvent` only appends achievement
records: `totalPoints`, `level` and `eventsParticipated` are untouched, and
the appended records are exactly `{achievementId, points}` for the returned
new achievements, in order. -/
theorem adminSweep_fields (cat : List Achievement) (u : User) :
    (adminSweep cat u).1.totalPoints = u.totalPoints
    ∧ (adminSweep cat u).1.level = u.level
    ∧ (adminSweep cat u).1.eventsParticipated = u.eventsParticipated
    ∧ (adminSweep cat u).1.id = u.id
    ∧ (adminSweep cat u).1.achievements =
        u.achievements ++
          (adminSweep cat u).2.map (fun a => { achievementId := a.id, points := a.points }) := by
  induction cat generalizing u with
  | nil => simp [adminSweep]
  | cons a rest ih =>
    simp only [adminSweep]
    split
    · have h := ih { u with achievements :=
        u.achievements ++ [{ achievementId := a.id, points := a.points }] }
      simpa [List.append_assoc] using h
    · exact ih u

/-- C2 (corrected): the achievement sweep run at the end of the
administrative point-award flow appends each newly-qualifying achievement
to the user's achievement list but does **not** add that achievement's
points to `totalPoints` and does not recompute `level`; the awarded user's
total reflects only the admin-specified points. -/
theorem admin_sweep_awards_without_points :
    (∀ (cat : List Achievement) (u : User),
      (adminSweep cat u).1.totalPoints = u.totalPoints
      ∧ (adminSweep cat u).1.level = u.level
      ∧ (adminSweep cat u).1.achievements =
          u.achievements ++
            (adminSweep cat u).2.map (fun a => { achievementId := a.id, points := a.points }))
    ∧ (∀ (now : Int) (e : Event) (u : User) (pts : Int) (cat : List Achievement)
        (e1 : Event) (u1 : User) (na : List Achievement),
        awardPointsForEvent now e u pts cat = Except.ok (e1, u1, na) →
        u1.totalPoints = u.totalPoints + pts) := by
  constructor
  · intro cat u
    exact ⟨(adminSweep_fields cat u).1, (adminSweep_fields cat u).2.1,
           (adminSweep_fields cat u).2.2.2.2⟩
  · intro now e u pts cat e1 u1 na h
    unfold awardPointsForEvent at h
    split at h
    · exact absurd h (by simp)
    · split at h
      · exact absurd h (by simp)
      · rw [Except.ok.injEq, Prod.mk.injEq, Prod.mk.injEq] at h
        obtain ⟨-, h2, -⟩ := h
        rw [← h2, (adminSweep_fields _ _).1]

/-- Counterexample to C2 as stated: the admin awards 50 points to a user at
10 points; the sweep then awards `achThreshold50` (reward 100), yet the
resulting total is 60 = 10 + 50, not 160 — the sweep added no points and
left the level alone. -/
theorem admin_sweep_counterexample :
    awardPointsForEvent 0 evPlain userTen 50 [achThreshold50] =
      Except.ok
        ({ evPlain with participants := [{ userId := 1, pointsEarned := 50 }] },
         { userTen with
             totalPoints := 60,
             level := 1,
             achievements := [{ achievementId := 7, points := 100 }],
             eventsParticipated := [{ eventId := 9, pointsEarned := 50 }] },
         [achThreshold50])
    ∧ (60 : Int) ≠ userTen.totalPoints + 50 + achThreshold50.points := by
  constructor
  · rfl
  · decide

/-- A successful `canParticipate` check against a nonzero capacity implies
the participant count is strictly below it. -/
theorem canParticipate_capacity {e : Event} {uid : Nat} {m : Int}
    (hm : e.maxParticipants = some m) (hm0 : m ≠ 0)
    (h : canParticipate e uid = true) :
    (e.participants.length : Int) < m := by
  unfold canParticipate at h
  split at h
  · exact absurd h (by simp)
  · split at h
    · exact absurd h (by simp)
    · simp only [hm] at h
      split at h
      · exact absurd h (by simp)
      · rename_i hc
        push_neg at hc
        have := hc hm0
        omega

/-- C3 (corrected, Join half): a successful Join on an event whose
`maxParticipants` is a nonzero `m` leaves at most `m` participants.  (The
administrative award path and the zero-capacity case are the
counterexample.) -/
theorem join_respects_nonzero_capacity (now : Int) (e : Event) (u : User)
    (m : Int) (e1 : Event) (u1 : User)
    (hm : e.maxParticipants = some m) (hm0 : m ≠ 0)
    (h : participateInEvent now e u = Except.ok (e1, u1)) :
    (e1.participants.length : Int) ≤ m := by
  unfold participateInEvent at h
  split at h
  · exact absurd h (by simp)
  · rename_i hcan
    simp only [Bool.not_eq_false] at hcan
    rw [Except.ok.injEq, Prod.mk.injEq] at h
    obtain ⟨he1, -⟩ := h
    have hlt := canParticipate_capacity hm hm0 hcan
    rw [← he1, saveEvent_participants]
    simp only [List.length_append, List.length_cons, List.length_nil]
    push_cast
    omega

/-- Counterexample to C3 as stated: the administrative award performs no
capacity check, pushing `evCapOne` (capacity 1) to 2 participants; and Join
on `evCapZero` (capacity 0, treated as unlimited by the truthiness test)
pushes it to 1 > 0 participants. -/
theorem capacity_invariant_counterexample :
    (awardPointsForEvent 0 evCapOne demoUser 10 []).toOption.map
        (fun r => r.1.participants.length) = some 2
    ∧ evCapOne.maxParticipants = some 1
    ∧ (participateInEvent 0 evCapZero demoUser).toOption.map
        (fun r => r.1.participants.length) = some 1
    ∧ evCapZero.maxParticipants = some 0 :=
  ⟨rfl, rfl, rfl, rfl⟩

/-- Witness for the corrected C3: a concrete join against capacity 5 stays
within the capacity. -/
theorem join_respects_nonzero_capacity_witness :
    ((evCapFiveAfter.participants.length : Int)) ≤ 5 :=
  join_respects_nonzero_capacity 0 evCapFive demoUser 5 evCapFiveAfter demoUserCapFive
    rfl (by decide) rfl

/-- `canParticipate` returns false whenever any of the coded preconditions
is violated (inactive, concluded status, existing participation, or a full
nonzero capacity). -/
theorem canParticipate_false_of_violation (e : Event) (uid : Nat)
    (h : e.isActive = false ∨ e.status = EventStatus.completed
      ∨ e.status = EventStatus.cancelled
      ∨ (∃ p ∈ e.participants, p.userId = uid)
      ∨ (∃ m, e.maxParticipants = some m ∧ m ≠ 0
          ∧ m ≤ (e.participants.length : Int))) :
    canParticipate e uid = false := by
  unfold canParticipate
  split
  · rfl
  · rename_i hc1
    split
    · rfl
    · rename_i hc2
      rcases h with h1 | h1 | h1 | ⟨p, hp, hpu⟩ | ⟨m, hm, hm0, hml⟩
      · exact absurd (Or.inl h1) hc1
      · exact absurd (Or.inr (Or.inl h1)) hc1
      · exact absurd (Or.inr (Or.inr h1)) hc1
      · exact absurd (List.any_eq_true.mpr ⟨p, hp, by simp [hpu]⟩) hc2
      · simp only [hm]
        rw [if_pos ⟨hm0, hml⟩]

/-- After a successful join the joining user's record sits at the end of
the participant list and the returned user keeps their id. -/
theorem join_adds_participant (now : Int) (e : Event) (u : User)
    (e1 : Event) (u1 : User)
    (h : participateInEvent now e u = Except.ok (e1, u1)) :
    e1.participants = e.participants ++ [{ userId := u.id, pointsEarned := e.points }]
    ∧ u1.id = u.id := by
  unfold participateInEvent at h
  split at h
  · exact absurd h (by simp)
  · rw [Except.ok.injEq, Prod.mk.injEq] at h
    obtain ⟨he1, hu1⟩ := h
    constructor
    · rw [← he1, saveEvent_participants]
    · rw [← hu1]

/-- C5 (corrected): Join fails with the `cannot participate` error — and,
the model persisting nothing on a thrown error, leaves both entities
unmodified — whenever the event is inactive, its status is completed or
cancelled, the user is already in the participant list, or the count has
reached a **nonzero** `maxParticipants` (a zero capacity is skipped by the
truthiness test — the counterexample); in particular a second Join by the
same user right after a successful one fails and cannot add points again. -/
theorem join_fails_on_violated_preconditions :
    (∀ (now : Int) (e : Event) (u : User),
      (e.isActive = false ∨ e.status = EventStatus.completed
        ∨ e.status = EventStatus.cancelled
        ∨ (∃ p ∈ e.participants, p.userId = u.id)
        ∨ (∃ m, e.maxParticipants = some m ∧ m ≠ 0
            ∧ m ≤ (e.participants.length : Int))) →
      participateInEvent now e u = Except.error ApiError.cannotParticipate)
    ∧ (∀ (now1 now2 : Int) (e : Event) (u : User) (e1 : Event) (u1 : User),
        participateInEvent now1 e u = Except.ok (e1, u1) →
        participateInEvent now2 e1 u1 = Except.error ApiError.cannotParticipate) := by
  constructor
  · intro now e u h
    unfold participateInEvent
    rw [if_pos (canParticipate_false_of_violation e u.id h)]
  · intro now1 now2 e u e1 u1 h
    obtain ⟨hpart, hid⟩ := join_adds_participant now1 e u e1 u1 h
    unfold participateInEvent
    rw [if_pos (canParticipate_false_of_violation e1 u1.id
      (Or.inr (Or.inr (Or.inr (Or.inl
        ⟨{ userId := u.id, pointsEarned := e.points },
         by rw [hpart]; exact List.mem_append_right _ (List.mem_singleton.mpr rfl),
         by simp [hid]⟩)))))]

/-- Witness for the corrected C5: a Join on a completed event fails, and a
second Join right after a successful one fails. -/
theorem join_fails_on_violated_preconditions_witness :
    participateInEvent 0 evDone demoUser = Except.error ApiError.cannotParticipate
    ∧ participateInEvent 0 evOpenAfter demoUserAfterOpen =
        Except.error ApiError.cannotParticipate :=
  ⟨join_fails_on_violated_preconditions.1 0 evDone demoUser (Or.inr (Or.inl rfl)),
   join_fails_on_violated_preconditions.2 0 0 evOpen demoUser evOpenAfter
     demoUserAfterOpen rfl⟩

/-- Counterexample to C5 as stated: `evCapZero` has
`participants.length == maxParticipants` (0 == 0), yet Join succeeds
rather than failing. -/
theorem join_full_zero_capacity_counterexample :
    evCapZero.participants.length = 0
    ∧ evCapZero.maxParticipants = some 0
    ∧ (participateInEvent 0 evCapZero demoUser).toOption.isSome = true :=
  ⟨rfl, rfl, rfl⟩

/-- `removeParticipation` on an event holding a matching participant
record: the shape of the success result. -/
theorem removeParticipation_found (now : Int) (e : Event) (u : User)
    (part : Participant)
    (hfind : e.participants.find? (fun p => p.userId == u.id) = some part) :
    removeParticipation now e u =
      Except.ok
        (saveEvent now
          { e with participants := e.participants.eraseP (fun p => p.userId == u.id) },
         { u with totalPoints := u.totalPoints - part.pointsEarned,
                  level := (u.totalPoints - part.pointsEarned).fdiv 200 + 1,
                  eventsParticipated :=
                    u.eventsParticipated.filter (fun ep => ep.eventId != e.id) }) := by
  unfold removeParticipation
  rw [hfind]
  rfl

/-- C4: a successful Join immediately followed by a Leave restores the
user's `totalPoints` and `eventsParticipated` to their pre-Join values,
provided the user's list held no record for this event beforehand (the
cross-entity consistency the flows maintain). -/
theorem join_leave_roundtrip (now1 now2 : Int) (e : Event) (u : User)
    (e1 : Event) (u1 : User) (e2 : Event) (u2 : User)
    (hclean : ∀ ep ∈ u.eventsParticipated, ep.eventId ≠ e.id)
    (hjoin : participateInEvent now1 e u = Except.ok (e1, u1))
    (hleave : removeParticipation now2 e1 u1 = Except.ok (e2, u2)) :
    u2.totalPoints = u.totalPoints
    ∧ u2.eventsParticipated = u.eventsParticipated := by
  unfold participateInEvent at hjoin
  split at hjoin
  · exact absurd hjoin (by simp)
  · rename_i hcan
    simp only [Bool.not_eq_false] at hcan
    rw [Except.ok.injEq, Prod.mk.injEq] at hjoin
    obtain ⟨he1, hu1⟩ := hjoin
    have hid : u1.id = u.id := by rw [← hu1]
    have htp : u1.totalPoints = u.totalPoints + e.points := by rw [← hu1]
    have hep : u1.eventsParticipated =
        u.eventsParticipated ++ [{ eventId := e.id, pointsEarned := e.points }] := by
      rw [← hu1]
    have hpart : e1.participants =
        e.participants ++ [{ userId := u.id, pointsEarned := e.points }] := by
      rw [← he1, saveEvent_participants]
    have heid : e1.id = e.id := by rw [← he1, saveEvent_id]
    have hnone : e.participants.find? (fun p => p.userId == u.id) = none := by
      unfold canParticipate at hcan
      split at hcan
      · exact absurd hcan (by simp)
      · split at hcan
        · exact absurd hcan (by simp)
        · rename_i hany
          rw [List.find?_eq_none]
          intro p hp hb
          exact hany (List.any_eq_true.mpr ⟨p, hp, hb⟩)
    have hfind : e1.participants.find? (fun p => p.userId == u1.id) =
        some { userId := u.id, pointsEarned := e.points } := by
      simp only [hid, hpart]
      rw [find_append_of_none _ _ _ hnone]
      simp
    rw [removeParticipation_found now2 e1 u1 _ hfind, Except.ok.injEq,
      Prod.mk.injEq] at hleave
    obtain ⟨-, hu2⟩ := hleave
    constructor
    · have h2 : u2.totalPoints = u1.totalPoints -
          (({ userId := u.id, pointsEarned := e.points } : Participant).pointsEarned) := by
        rw [← hu2]
      rw [h2, htp]
      ring
    · have h2 : u2.eventsParticipated =
          u1.eventsParticipated.filter (fun ep => ep.eventId != e1.id) := by
        rw [← hu2]
      rw [h2, hep]
      simp only [heid, List.filter_append]
      have hsingle : List.filter (fun ep : EventParticipation => ep.eventId != e.id)
          [{ eventId := e.id, pointsEarned := e.points }] = [] := by simp
      rw [hsingle, List.append_nil]
      apply List.filter_eq_self.mpr
      intro ep hp
      simpa using hclean ep hp

/-- Witness for C4: the demo user joins and immediately leaves `evOpen`,
landing back at the original totals and participation list. -/
theorem join_leave_roundtrip_witness :
    demoUser.totalPoints = demoUser.totalPoints
    ∧ demoUser.eventsParticipated = demoUser.eventsParticipated :=
  join_leave_roundtrip 0 0 evOpen demoUser evOpenAfter demoUserAfterOpen
    evOpen demoUser (by decide) rfl rfl

/-- The direct-check sweep preserves the level invariant: every award
recomputes the level from the updated total, and a skipped achievement
changes nothing. -/
theorem checkSweep_level_invariant (cat : List Achievement) (u : User)
    (h : levelInvariant u) : levelInvariant (checkSweep cat u).1 := by
  induction cat generalizing u with
  | nil => simpa [checkSweep] using h
  | cons a rest ih =>
    simp only [checkSweep]
    split
    · exact ih _ rfl
    · exact ih u h

/-- C1: after every mutating operation — Join, Leave, administrative point
award (including its trailing sweep, which moves no points), and the direct
achievement-check flow (assuming the invariant held before, since a sweep
that awards nothing writes nothing) — the user's level equals
`floor(totalPoints / 200) + 1`. -/
theorem level_matches_totalPoints :
    (∀ (now : Int) (e : Event) (u : User) (e1 : Event) (u1 : User),
      participateInEvent now e u = Except.ok (e1, u1) → levelInvariant u1)
    ∧ (∀ (now : Int) (e : Event) (u : User) (e1 : Event) (u1 : User),
      removeParticipation now e u = Except.ok (e1, u1) → levelInvariant u1)
    ∧ (∀ (now : Int) (e : Event) (u : User) (pts : Int) (cat : List Achievement)
        (e1 : Event) (u1 : User) (na : List Achievement),
      awardPointsForEvent now e u pts cat = Except.ok (e1, u1, na) → levelInvariant u1)
    ∧ (∀ (cat : List Achievement) (u : User),
      levelInvariant u → levelInvariant (checkUserAchievements u cat).1) := by
  refine ⟨?_, ?_, ?_, ?_⟩
  · intro now e u e1 u1 h
    unfold participateInEvent at h
    split at h
    · exact absurd h (by simp)
    · rw [Except.ok.injEq, Prod.mk.injEq] at h
      obtain ⟨-, hu1⟩ := h
      rw [← hu1]
      rfl
  · intro now e u e1 u1 h
    unfold removeParticipation at h
    split at h
    · exact absurd h (by simp)
    · rw [Except.ok.injEq, Prod.mk.injEq] at h
      obtain ⟨-, hu1⟩ := h
      rw [← hu1]
      rfl
  · intro now e u pts cat e1 u1 na h
    unfold awardPointsForEvent at h
    split at h
    · exact absurd h (by simp)
    · split at h
      · exact absurd h (by simp)
      · rw [Except.ok.injEq, Prod.mk.injEq, Prod.mk.injEq] at h
        obtain ⟨-, hu1, -⟩ := h
        rw [← hu1]
        unfold levelInvariant
        rw [(adminSweep_fields _ _).1, (adminSweep_fields _ _).2.1]
        rfl
  · intro cat u h
    exact checkSweep_level_invariant _ u h

/-- Witness for C1: each flow instantiated at concrete inputs. -/
theorem level_matches_totalPoints_witness :
    levelInvariant demoUserAfterOpen
    ∧ levelInvariant demoUser
    ∧ levelInvariant userTenAwarded
    ∧ levelInvariant (checkUserAchievements demoUser [achA, achB]).1 :=
  ⟨level_matches_totalPoints.1 0 evOpen demoUser evOpenAfter demoUserAfterOpen rfl,
   level_matches_totalPoints.2.1 0 evOpenAfter demoUserAfterOpen evOpen demoUser rfl,
   level_matches_totalPoints.2.2.1 0 evPlain userTen 50 [achThreshold50]
     evPlainAfterAward userTenAwarded [achThreshold50] rfl,
   level_matches_totalPoints.2.2.2 [achA, achB] demoUser (by unfold levelInvariant; decide)⟩

/-- The direct-check sweep never returns an achievement whose id the user
already held when the sweep started. -/
theorem checkSweep_no_award_of_held (cat : List Achievement) (u : User) :
    ∀ pr ∈ (checkSweep cat u).2,
      pr.1.id ∉ u.achievements.map (fun ua => ua.achievementId) := by
  induction cat generalizing u with
  | nil => intro pr hpr; simp [checkSweep] at hpr
  | cons a rest ih =>
    intro pr hpr
    simp only [checkSweep] at hpr
    split at hpr
    · rename_i hcond
      rcases List.mem_cons.mp hpr with heq | htail
      · obtain ⟨hhas, -⟩ := hcond
        subst heq
        intro hmem
        rw [List.any_eq_false] at hhas
        obtain ⟨ua, hua, huaid⟩ := List.mem_map.mp hmem
        exact hhas ua hua (by simp [huaid])
      · intro hmem
        refine ih _ pr htail ?_
        show pr.1.id ∈
          ((u.achievements ++ [({ achievementId := a.id, points := a.points } : UserAchievement)]).map
            (fun ua : UserAchievement => ua.achievementId))
        simp only [List.map_append, List.mem_append]
        exact Or.inl hmem
    · exact ih u pr hpr

/-- The admin-award sweep never returns an achievement whose id the user
already held when the sweep started. -/
theorem adminSweep_no_award_of_held (cat : List Achievement) (u : User) :
    ∀ a ∈ (adminSweep cat u).2,
      a.id ∉ u.achievements.map (fun ua => ua.achievementId) := by
  induction cat generalizing u with
  | nil => intro a ha; simp [adminSweep] at ha
  | cons a rest ih =>
    intro b hb
    simp only [adminSweep] at hb
    split at hb
    · rename_i hcond
      rcases List.mem_cons.mp hb with heq | htail
      · obtain ⟨hhas, -⟩ := hcond
        subst heq
        intro hmem
        rw [List.any_eq_false] at hhas
        obtain ⟨ua, hua, huaid⟩ := List.mem_map.mp hmem
        exact hhas ua hua (by simp [huaid])
      · intro hmem
        refine ih _ b htail ?_
        show b.id ∈
          ((u.achievements ++ [({ achievementId := a.id, points := a.points } : UserAchievement)]).map
            (fun ua : UserAchievement => ua.achievementId))
        simp only [List.map_append, List.mem_append]
        exact Or.inl hmem
    · exact ih u b hb

/-- The direct-check sweep keeps the achievement-id list duplicate-free. -/
theorem checkSweep_ids_nodup (cat : List Achievement) (u : User)
    (h : (u.achievements.map (fun ua => ua.achievementId)).Nodup) :
    ((checkSweep cat u).1.achievements.map (fun ua => ua.achievementId)).Nodup := by
  induction cat generalizing u with
  | nil => simpa [checkSweep] using h
  | cons a rest ih =>
    simp only [checkSweep]
    split
    · rename_i hcond
      apply ih
      show ((u.achievements ++ [({ achievementId := a.id, points := a.points } : UserAchievement)]).map
        (fun ua : UserAchievement => ua.achievementId)).Nodup
      rw [List.map_append]
      refine List.Nodup.append h (by simp) ?_
      intro x hx hx2
      obtain ⟨hhas, -⟩ := hcond
      rw [List.any_eq_false] at hhas
      obtain ⟨ua, hua, huaid⟩ := List.mem_map.mp hx
      simp only [List.map_cons, List.map_nil, List.mem_singleton] at hx2
      exact hhas ua hua (by simp [huaid, hx2])
    · exact ih u h

/-- The admin-award sweep keeps the achievement-id list duplicate-free. -/
theorem adminSweep_ids_nodup (cat : List Achievement) (u : User)
    (h : (u.achievements.map (fun ua => ua.achievementId)).Nodup) :
    ((adminSweep cat u).1.achievements.map (fun ua => ua.achievementId)).Nodup := by
  induction cat generalizing u with
  | nil => simpa [adminSweep] using h
  | cons a rest ih =>
    simp only [adminSweep]
    split
    · rename_i hcond
      apply ih
      show ((u.achievements ++ [({ achievementId := a.id, points := a.points } : UserAchievement)]).map
        (fun ua : UserAchievement => ua.achievementId)).Nodup
      rw [List.map_append]
      refine List.Nodup.append h (by simp) ?_
      intro x hx hx2
      obtain ⟨hhas, -⟩ := hcond
      rw [List.any_eq_false] at hhas
      obtain ⟨ua, hua, huaid⟩ := List.mem_map.mp hx
      simp only [List.map_cons, List.map_nil, List.mem_singleton] at hx2
      exact hhas ua hua (by simp [huaid, hx2])
    · exact ih u h

/-- C8: neither sweep ever awards an achievement whose id is already in the
user's list (the held-achievement guard is re-checked against the running
list), and both preserve the no-duplicate-achievementId invariant; applying
the membership parts to a sweep's output state gives the same guarantee for
every repeated invocation. -/
theorem sweeps_never_award_held :
    (∀ (cat : List Achievement) (u : User) (pr : Achievement × Int),
      pr ∈ (checkSweep cat u).2 →
      pr.1.id ∉ u.achievements.map (fun ua => ua.achievementId))
    ∧ (∀ (cat : List Achievement) (u : User) (a : Achievement),
      a ∈ (adminSweep cat u).2 →
      a.id ∉ u.achievements.map (fun ua => ua.achievementId))
    ∧ (∀ (cat : List Achievement) (u : User),
      (u.achievements.map (fun ua => ua.achievementId)).Nodup →
      ((checkSweep cat u).1.achievements.map (fun ua => ua.achievementId)).Nodup)
    ∧ (∀ (cat : List Achievement) (u : User),
      (u.achievements.map (fun ua => ua.achievementId)).Nodup →
      ((adminSweep cat u).1.achievements.map (fun ua => ua.achievementId)).Nodup) :=
  ⟨fun cat u pr hpr => checkSweep_no_award_of_held cat u pr hpr,
   fun cat u a ha => adminSweep_no_award_of_held cat u a ha,
   fun cat u h => checkSweep_ids_nodup cat u h,
   fun cat u h => adminSweep_ids_nodup cat u h⟩

/-- Witness for C8: over the catalog `[achA, achB]` and a user already
holding `achA`, both sweeps award only `achB`, and both final lists remain
duplicate-free. -/
theorem sweeps_never_award_held_witness :
    achB.id ∉ heldUser.achievements.map (fun ua => ua.achievementId)
    ∧ ((checkSweep [achA, achB] heldUser).1.achievements.map
        (fun ua => ua.achievementId)).Nodup
    ∧ ((adminSweep [achA, achB] heldUser).1.achievements.map
        (fun ua => ua.achievementId)).Nodup :=
  ⟨sweeps_never_award_held.2.1 [achA, achB] heldUser achB (by decide),
   sweeps_never_award_held.2.2.1 [achA, achB] heldUser (by decide),
   sweeps_never_award_held.2.2.2 [achA, achB] heldUser (by decide)⟩

/-- Witness for the corrected C2: in the concrete admin award of 50 points
to `userTen`, the resulting total is the old total plus the admin points. -/
theorem admin_sweep_awards_without_points_witness :
    userTenAwarded.totalPoints = userTen.totalPoints + 50 :=
  admin_sweep_awards_without_points.2 0 evPlain userTen 50 [achThreshold50]
    evPlainAfterAward userTenAwarded [achThreshold50] rfl
